import Mathlib

/-!
Shallow embedding of the `aadhaar-chain` programs
(`programs/identity-core/src/lib.rs` and `programs/credential-vault/src/lib.rs`)
and proofs of the specification claims about them.

Modelling conventions:
* `Pubkey` is an abstract key value, modelled as `Nat`.
* Rust `String` fields are only length-checked (`len()` = byte length), stored
  and used as address seeds, so they are modelled as byte sequences `List Nat`.
* `[u8; 32]` values (commitments, claim hashes) are modelled as `List Nat`;
  they are only stored and compared for equality.
* `i64` timestamps are modelled as `Int`, `u64`/`u32` counters and masks as
  `Nat`.  The bit width of `verification_bits` (`u32`) matters for the bitwise
  complement in `clear_verification_bit` and is modelled explicitly there.
* Each instruction handler becomes a function from its account state and
  arguments to `Except e` of the new account state; a handler with no failure
  path becomes a total function.  The `Clock::get()` sysvar read becomes an
  explicit `now : Int` parameter, and each `Signer` account of the
  instruction's accounts struct becomes an explicit key parameter (the runtime
  authenticates it; the handler receives it).
* `msg!` logging is an observability side channel and is not modelled.
* The runtime's account resolution (PDA `seeds`/`bump` constraints, `init`
  insert-if-absent, positional `#[instruction(...)]` argument parsing, atomic
  rollback on error) is modelled by the `ChainState` machine further below:
  records live in maps keyed by their seed tuples, seeds taken from
  instruction arguments are obtained by the runtime's positional Borsh parse
  of the instruction data, and a failing instruction leaves the state
  unchanged.
-/

namespace AadhaarChain

/-- An authenticated key (`Pubkey`), abstract. -/
abbrev Pubkey := Nat

/-- Bytes of a Rust `String` field; `len()` is the byte count. -/
abbrev Bytes := List Nat

/-- A `[u8; 32]` value (commitment / claims hash). -/
abbrev Hash32 := List Nat

/-! ## identity-core: state, errors, handlers -/

/-- PDA bump for `seeds = [b"identity", owner]`: derived by the runtime as a
pure function of the seed tuple; modelled as a fixed function of `owner`. -/
def identityBump (_owner : Pubkey) : Nat := 0

/-- Struct `IdentityAccount` from `programs/identity-core/src/lib.rs`. -/
structure IdentityAccount where
  owner : Pubkey
  commitment : Hash32
  metadata_uri : Bytes
  created_at : Int
  updated_at : Int
  verification_bits : Nat
  recovery_counter : Nat
  bump : Nat
  deriving DecidableEq, Repr

/-- Errors `IdentityError` from `programs/identity-core/src/lib.rs`. -/
inductive IdentityError where
  | UriTooLong
  | InvalidBitIndex
  | RecoveryPeriodNotMet
  deriving DecidableEq, Repr

/-- Handler `create_identity`: requires `metadata_uri.len() <= 200`, then initializes
every field of the fresh identity account.  `payer` is the signer funding the
account; the handler never reads it. -/
def create_identity (_payer : Pubkey) (owner : Pubkey) (commitment : Hash32)
    (metadata_uri : Bytes) (now : Int) : Except IdentityError IdentityAccount :=
  if metadata_uri.length ≤ 200 then
    .ok { owner := owner
          commitment := commitment
          metadata_uri := metadata_uri
          created_at := now
          updated_at := now
          verification_bits := 0
          recovery_counter := 0
          bump := identityBump owner }
  else
    .error .UriTooLong

/-- Handler `update_commitment`: overwrites `commitment`, bumps `updated_at`.
No failure path; `authority` is the signer, never read by the handler. -/
def update_commitment (_authority : Pubkey) (identity : IdentityAccount)
    (new_commitment : Hash32) (now : Int) : IdentityAccount :=
  { identity with commitment := new_commitment, updated_at := now }

/-- Handler `set_verification_bit`: requires `bit_index < 32`, then
`verification_bits |= 1 << bit_index`.  `verifier` is the signer, never read. -/
def set_verification_bit (_verifier : Pubkey) (identity : IdentityAccount)
    (bit_index : Nat) : Except IdentityError IdentityAccount :=
  if bit_index < 32 then
    .ok { identity with
          verification_bits := identity.verification_bits ||| (1 <<< bit_index) }
  else
    .error .InvalidBitIndex

/-- Handler `clear_verification_bit`: requires `bit_index < 32`, then
`verification_bits &= !(1 << bit_index)` where `!` is the 32-bit complement
(`verification_bits` is a `u32`).  `authority` is the signer, never read. -/
def clear_verification_bit (_authority : Pubkey) (identity : IdentityAccount)
    (bit_index : Nat) : Except IdentityError IdentityAccount :=
  if bit_index < 32 then
    .ok { identity with
          verification_bits :=
            identity.verification_bits &&& (Nat.xor (2 ^ 32 - 1) (1 <<< bit_index)) }
  else
    .error .InvalidBitIndex

/-- Handler `recover_identity`: requires
`clock.unix_timestamp - identity.updated_at >= 30*24*60*60`, then sets
`owner := new_owner`, `recovery_counter += 1`, `updated_at := now`.
`authority` is the signer, never read by the handler. -/
def recover_identity (_authority : Pubkey) (identity : IdentityAccount)
    (new_owner : Pubkey) (now : Int) : Except IdentityError IdentityAccount :=
  let recovery_period : Int := 30 * 24 * 60 * 60
  let elapsed : Int := now - identity.updated_at
  if elapsed ≥ recovery_period then
    .ok { identity with
          owner := new_owner
          recovery_counter := identity.recovery_counter + 1
          updated_at := now }
  else
    .error .RecoveryPeriodNotMet

/-! ## credential-vault: state, errors, handlers -/

/-- Seed tuple of a credential PDA: `(owner, credential_type, issuer_did)`. -/
abbrev CredAddr := Pubkey × Bytes × Bytes

/-- Seed tuple of an access-grant PDA:
`(credential address, grantor, purpose)`. -/
abbrev GrantAddr := CredAddr × Pubkey × Bytes

/-- PDA bump for `seeds = [b"credential", owner, credential_type, issuer_did]`,
modelled as a fixed function of the seed tuple. -/
def credentialBump (_addr : CredAddr) : Nat := 0

/-- PDA bump for `seeds = [b"access", credential, owner, purpose]`, modelled as
a fixed function of the seed tuple. -/
def accessGrantBump (_addr : GrantAddr) : Nat := 0

/-- Struct `CredentialAccount` from `programs/credential-vault/src/lib.rs`. -/
structure CredentialAccount where
  owner : Pubkey
  credential_type : Bytes
  claims_hash : Hash32
  issuer_did : Bytes
  issued_at : Int
  expiry : Option Int
  metadata_uri : Bytes
  revoked : Bool
  revocation_reason : Option Bytes
  bump : Nat
  deriving DecidableEq, Repr

/-- Struct `AccessGrantAccount` from `programs/credential-vault/src/lib.rs`; its
`credential: Pubkey` field holds the referenced credential's address,
modelled as that credential's seed tuple. -/
structure AccessGrantAccount where
  credential : CredAddr
  grantor : Pubkey
  grantee : Pubkey
  purpose : Bytes
  expires_at : Int
  field_mask : Nat
  revoked : Bool
  bump : Nat
  deriving DecidableEq, Repr

/-- Errors `CredentialError` from `programs/credential-vault/src/lib.rs`. -/
inductive CredentialError where
  | TypeTooLong
  | DidTooLong
  | UriTooLong
  | ReasonTooLong
  | PurposeTooLong
  | InvalidExpiry
  | CredentialRevoked
  | CredentialExpired
  | HashMismatch
  deriving DecidableEq, Repr

/-- Handler `issue_credential`: length checks on type, DID and URI in that order, then
initializes the fresh credential.  `owner` is the owner signer whose key is
stored; `payer` funds the account and is never read. -/
def issue_credential (owner : Pubkey) (_payer : Pubkey) (credential_type : Bytes)
    (claims_hash : Hash32) (issuer_did : Bytes) (expiry : Option Int)
    (metadata_uri : Bytes) (now : Int) : Except CredentialError CredentialAccount :=
  if credential_type.length ≤ 50 then
    if issuer_did.length ≤ 100 then
      if metadata_uri.length ≤ 200 then
        .ok { owner := owner
              credential_type := credential_type
              claims_hash := claims_hash
              issuer_did := issuer_did
              issued_at := now
              expiry := expiry
              metadata_uri := metadata_uri
              revoked := false
              revocation_reason := none
              bump := credentialBump (owner, credential_type, issuer_did) }
      else .error .UriTooLong
    else .error .DidTooLong
  else .error .TypeTooLong

/-- Handler `revoke_credential`: requires `reason.len() <= 200`, then sets
`revoked = true` and `revocation_reason = Some(reason)`.  `issuer` is the
signer, never read by the handler. -/
def revoke_credential (_issuer : Pubkey) (credential : CredentialAccount)
    (reason : Bytes) : Except CredentialError CredentialAccount :=
  if reason.length ≤ 200 then
    .ok { credential with revoked := true, revocation_reason := some reason }
  else
    .error .ReasonTooLong

/-- Handler `grant_access`: requires `purpose.len() <= 200` and
`expires_at > clock.unix_timestamp`, then initializes the fresh grant with
`grantor` = the `owner` signer's key and `credential` = the credential
account's address.  `payer` funds the account and is never read. -/
def grant_access (owner : Pubkey) (_payer : Pubkey) (credential : CredAddr)
    (grantee : Pubkey) (purpose : Bytes) (expires_at : Int) (field_mask : Nat)
    (now : Int) : Except CredentialError AccessGrantAccount :=
  if purpose.length ≤ 200 then
    if expires_at > now then
      .ok { credential := credential
            grantor := owner
            grantee := grantee
            purpose := purpose
            expires_at := expires_at
            field_mask := field_mask
            revoked := false
            bump := accessGrantBump (credential, owner, purpose) }
    else .error .InvalidExpiry
  else .error .PurposeTooLong

/-- Handler `revoke_access_grant`: sets `revoked = true`; no failure path.
`grantor` is the signer, never read by the handler. -/
def revoke_access_grant (_grantor : Pubkey) (access_grant : AccessGrantAccount) :
    AccessGrantAccount :=
  { access_grant with revoked := true }

/-- Handler `verify_credential`: read-only checks in source order — revoked, then
expiry (`require!(expiry > now)` when present), then claims hash. -/
def verify_credential (credential : CredentialAccount) (expected_hash : Hash32)
    (now : Int) : Except CredentialError Unit :=
  if credential.revoked then .error .CredentialRevoked
  else
    match credential.expiry with
    | some expiry =>
      if expiry > now then
        if credential.claims_hash = expected_hash then .ok ()
        else .error .HashMismatch
      else .error .CredentialExpired
    | none =>
      if credential.claims_hash = expected_hash then .ok ()
      else .error .HashMismatch

/-! ## Instruction data and the runtime's seed-argument parse

Anchor serializes an instruction's arguments in declared order (Borsh), and an
accounts struct's `#[instruction(...)]` list is deserialized positionally from
the START of that data during account resolution — the listed arguments must
be a prefix of the handler's arguments.  `CreateIdentity` lists a correct
prefix (`owner` is the first argument), but `IssueCredential` lists
`(credential_type, issuer_did, metadata_uri)` while the handler's arguments
are `(credential_type, claims_hash, issuer_did, expiry, metadata_uri)`, so
`issuer_did` is parsed out of the raw `claims_hash` bytes; and `GrantAccess`
lists `(purpose)` while the handler's arguments are
`(grantee, purpose, expires_at, field_mask)`, so `purpose` is parsed out of
the grantee's 32 raw bytes.  The parsed — not the semantic — values feed the
PDA `seeds`, and a parse that exhausts the data aborts resolution.  UTF-8
validity of parsed strings is not modelled: a real parse fails strictly more
often than this one. -/

/-- Little-endian base-256 digits of a number, at a fixed width. -/
def natLE : Nat → Nat → Bytes
  | 0, _ => []
  | k + 1, n => n % 256 :: natLE k (n / 256)

/-- Borsh `u32`, little endian. -/
def u32LE (n : Nat) : Bytes := natLE 4 n

/-- Borsh `u64`, little endian. -/
def u64LE (n : Nat) : Bytes := natLE 8 n

/-- Borsh `i64`: two's complement, little endian. -/
def i64LE (x : Int) : Bytes := natLE 8 (x.emod (2 ^ 64)).toNat

/-- Borsh serialization of a `Pubkey`: its 32 raw bytes. -/
def pubkeyBytes (p : Pubkey) : Bytes := natLE 32 p

/-- Borsh `String`: `u32` byte length, then the bytes. -/
def borshString (s : Bytes) : Bytes := u32LE s.length ++ s

/-- Borsh `Option<i64>`: one tag byte, then the payload when present. -/
def borshOptionI64 : Option Int → Bytes
  | none => [0]
  | some x => 1 :: i64LE x

/-- Read a little-endian `u32` from the stream. -/
def readU32LE : Bytes → Option (Nat × Bytes)
  | b0 :: b1 :: b2 :: b3 :: rest =>
    some (b0 + 256 * b1 + 256 ^ 2 * b2 + 256 ^ 3 * b3, rest)
  | _ => none

/-- Read a Borsh `String` (length prefix, then that many bytes) from the
stream; fails when the stream is too short. -/
def readBorshString (data : Bytes) : Option (Bytes × Bytes) :=
  match readU32LE data with
  | none => none
  | some (n, rest) =>
    if n ≤ rest.length then some (rest.take n, rest.drop n) else none

/-- Instruction data of `issue_credential`: its arguments, Borsh-serialized
in declared order (a `[u8; 32]` serializes as its raw bytes). -/
def issueCredentialData (credential_type : Bytes) (claims_hash : Hash32)
    (issuer_did : Bytes) (expiry : Option Int) (metadata_uri : Bytes) : Bytes :=
  borshString credential_type ++ claims_hash ++ borshString issuer_did ++
    borshOptionI64 expiry ++ borshString metadata_uri

/-- Seed values the runtime obtains for `IssueCredential`'s
`#[instruction(credential_type, issuer_did, metadata_uri)]` list: three
strings parsed positionally from the start of the instruction data, so the
second one lands in the raw `claims_hash` bytes.  Resolution aborts when any
of the three reads fails. -/
def issueParsedSeeds (credential_type : Bytes) (claims_hash : Hash32)
    (issuer_did : Bytes) (expiry : Option Int) (metadata_uri : Bytes) :
    Option (Bytes × Bytes) :=
  match readBorshString
      (issueCredentialData credential_type claims_hash issuer_did expiry
        metadata_uri) with
  | none => none
  | some (pct, rest1) =>
    match readBorshString rest1 with
    | none => none
    | some (pdid, rest2) =>
      match readBorshString rest2 with
      | none => none
      | some _ => some (pct, pdid)

/-- Instruction data of `grant_access`: its arguments, Borsh-serialized in
declared order. -/
def grantAccessData (grantee : Pubkey) (purpose : Bytes) (expires_at : Int)
    (field_mask : Nat) : Bytes :=
  pubkeyBytes grantee ++ borshString purpose ++ i64LE expires_at ++
    u64LE field_mask

/-- Seed value the runtime obtains for `GrantAccess`'s
`#[instruction(purpose: String)]` list: one string parsed from the start of
the instruction data, i.e. out of the grantee's 32 raw bytes. -/
def grantParsedPurpose (grantee : Pubkey) (purpose : Bytes) (expires_at : Int)
    (field_mask : Nat) : Option Bytes :=
  match readBorshString (grantAccessData grantee purpose expires_at field_mask) with
  | none => none
  | some r => some r.1

/-! ## The chain: records keyed by deterministic addresses, one-shot ops

The runtime gives every instruction atomic, serialized execution against
accounts located by PDA seed constraints.  `ChainState` holds the three
record stores keyed by their seed tuples; `exec` resolves accounts exactly as
the instructions' accounts structs do (`init` = insert-if-absent, a mutable
account must re-derive its own address from its stored fields via the
declared `seeds`, and `#[instruction(...)]`-derived seeds come from the
positional parse above), then runs the handler; `applyOp` commits the new
state on success and leaves the state untouched on any failure (atomic
rollback). -/

structure ChainState where
  identities : Pubkey → Option IdentityAccount
  credentials : CredAddr → Option CredentialAccount
  grants : GrantAddr → Option AccessGrantAccount

/-- Failure of one instruction: a handler error, or an account-resolution
failure surfaced by the runtime (occupied `init` address, missing account,
seeds constraint violation, failed positional parse of the
`#[instruction(...)]` seed arguments). -/
inductive ChainError where
  | identity (e : IdentityError)
  | credential (e : CredentialError)
  | duplicateAddress
  | accountNotFound
  | constraintSeeds
  | argParseFailed
  deriving DecidableEq, Repr

/-- One instruction of either program, with its signer keys and arguments.
Mutable accounts are designated by their address (seed tuple). -/
inductive Op where
  | createIdentity (payer : Pubkey) (owner : Pubkey) (commitment : Hash32)
      (metadata_uri : Bytes)
  | updateCommitment (authority : Pubkey) (addr : Pubkey) (new_commitment : Hash32)
  | setVerificationBit (verifier : Pubkey) (addr : Pubkey) (bit_index : Nat)
  | clearVerificationBit (authority : Pubkey) (addr : Pubkey) (bit_index : Nat)
  | recoverIdentity (authority : Pubkey) (addr : Pubkey) (new_owner : Pubkey)
  | issueCredential (owner : Pubkey) (payer : Pubkey) (credential_type : Bytes)
      (claims_hash : Hash32) (issuer_did : Bytes) (expiry : Option Int)
      (metadata_uri : Bytes)
  | revokeCredential (issuer : Pubkey) (addr : CredAddr) (reason : Bytes)
  | grantAccess (owner : Pubkey) (payer : Pubkey) (addr : CredAddr)
      (grantee : Pubkey) (purpose : Bytes) (expires_at : Int) (field_mask : Nat)
  | revokeAccessGrant (grantor : Pubkey) (addr : GrantAddr)
  | verifyCredential (addr : CredAddr) (expected_hash : Hash32)
  deriving DecidableEq, Repr

def setIdentity (s : ChainState) (a : Pubkey) (i : IdentityAccount) : ChainState :=
  { s with identities := fun x => if x = a then some i else s.identities x }

def setCredential (s : ChainState) (a : CredAddr) (c : CredentialAccount) : ChainState :=
  { s with credentials := fun x => if x = a then some c else s.credentials x }

def setGrant (s : ChainState) (a : GrantAddr) (g : AccessGrantAccount) : ChainState :=
  { s with grants := fun x => if x = a then some g else s.grants x }

/-- The `seeds = [b"identity", identity.owner.as_ref()]` constraint on a
mutable identity account: the account at `addr` must re-derive from its
stored `owner` (the bump seed is a function of the same tuple). -/
def identitySeedsOK (addr : Pubkey) (i : IdentityAccount) : Prop := i.owner = addr

instance (addr : Pubkey) (i : IdentityAccount) : Decidable (identitySeedsOK addr i) :=
  inferInstanceAs (Decidable (i.owner = addr))

/-- The `seeds = [b"credential", owner, credential_type, issuer_did]`
constraint on an existing credential account. -/
def credentialSeedsOK (addr : CredAddr) (c : CredentialAccount) : Prop :=
  (c.owner, c.credential_type, c.issuer_did) = addr

instance (addr : CredAddr) (c : CredentialAccount) :
    Decidable (credentialSeedsOK addr c) :=
  inferInstanceAs (Decidable ((c.owner, c.credential_type, c.issuer_did) = addr))

/-- The `seeds = [b"access", credential, grantor, purpose]` constraint on an
existing access-grant account. -/
def grantSeedsOK (addr : GrantAddr) (g : AccessGrantAccount) : Prop :=
  (g.credential, g.grantor, g.purpose) = addr

instance (addr : GrantAddr) (g : AccessGrantAccount) :
    Decidable (grantSeedsOK addr g) :=
  inferInstanceAs (Decidable ((g.credential, g.grantor, g.purpose) = addr))

/-- Resolve accounts and run one instruction at time `now`. -/
def exec (s : ChainState) (now : Int) : Op → Except ChainError ChainState
  | .createIdentity payer owner commitment metadata_uri =>
    match s.identities owner with
    | some _ => .error .duplicateAddress
    | none =>
      match create_identity payer owner commitment metadata_uri now with
      | .ok i => .ok (setIdentity s owner i)
      | .error e => .error (.identity e)
  | .updateCommitment authority addr new_commitment =>
    match s.identities addr with
    | none => .error .accountNotFound
    | some i =>
      if identitySeedsOK addr i then
        .ok (setIdentity s addr (update_commitment authority i new_commitment now))
      else .error .constraintSeeds
  | .setVerificationBit verifier addr bit_index =>
    match s.identities addr with
    | none => .error .accountNotFound
    | some i =>
      if identitySeedsOK addr i then
        match set_verification_bit verifier i bit_index with
        | .ok i' => .ok (setIdentity s addr i')
        | .error e => .error (.identity e)
      else .error .constraintSeeds
  | .clearVerificationBit authority addr bit_index =>
    match s.identities addr with
    | none => .error .accountNotFound
    | some i =>
      if identitySeedsOK addr i then
        match clear_verification_bit authority i bit_index with
        | .ok i' => .ok (setIdentity s addr i')
        | .error e => .error (.identity e)
      else .error .constraintSeeds
  | .recoverIdentity authority addr new_owner =>
    match s.identities addr with
    | none => .error .accountNotFound
    | some i =>
      if identitySeedsOK addr i then
        match recover_identity authority i new_owner now with
        | .ok i' => .ok (setIdentity s addr i')
        | .error e => .error (.identity e)
      else .error .constraintSeeds
  | .issueCredential owner payer credential_type claims_hash issuer_did expiry metadata_uri =>
    match issueParsedSeeds credential_type claims_hash issuer_did expiry metadata_uri with
    | none => .error .argParseFailed
    | some ps =>
      match s.credentials (owner, ps.1, ps.2) with
      | some _ => .error .duplicateAddress
      | none =>
        match issue_credential owner payer credential_type claims_hash issuer_did
            expiry metadata_uri now with
        | .ok c => .ok (setCredential s (owner, ps.1, ps.2) c)
        | .error e => .error (.credential e)
  | .revokeCredential issuer addr reason =>
    match s.credentials addr with
    | none => .error .accountNotFound
    | some c =>
      if credentialSeedsOK addr c then
        match revoke_credential issuer c reason with
        | .ok c' => .ok (setCredential s addr c')
        | .error e => .error (.credential e)
      else .error .constraintSeeds
  | .grantAccess owner payer addr grantee purpose expires_at field_mask =>
    match grantParsedPurpose grantee purpose expires_at field_mask with
    | none => .error .argParseFailed
    | some pp =>
      match s.credentials addr with
      | none => .error .accountNotFound
      | some c =>
        if credentialSeedsOK addr c then
          match s.grants (addr, owner, pp) with
          | some _ => .error .duplicateAddress
          | none =>
            match grant_access owner payer addr grantee purpose expires_at
                field_mask now with
            | .ok g => .ok (setGrant s (addr, owner, pp) g)
            | .error e => .error (.credential e)
        else .error .constraintSeeds
  | .revokeAccessGrant grantor addr =>
    match s.grants addr with
    | none => .error .accountNotFound
    | some g =>
      if grantSeedsOK addr g then
        .ok (setGrant s addr (revoke_access_grant grantor g))
      else .error .constraintSeeds
  | .verifyCredential addr expected_hash =>
    match s.credentials addr with
    | none => .error .accountNotFound
    | some c =>
      if credentialSeedsOK addr c then
        match verify_credential c expected_hash now with
        | .ok _ => .ok s
        | .error e => .error (.credential e)
      else .error .constraintSeeds

/-- Commit the instruction's state on success; a failed instruction aborts
atomically and leaves every record unchanged. -/
def applyOp (s : ChainState) (now : Int) (op : Op) : ChainState :=
  match exec s now op with
  | .ok s' => s'
  | .error _ => s

/-- Run a sequence of timestamped instructions. -/
def run (s : ChainState) : List (Int × Op) → ChainState
  | [] => s
  | (t, op) :: rest => run (applyOp s t op) rest

/-! ## Sample records used by witnesses -/

def idW : IdentityAccount :=
  { owner := 7, commitment := [1, 2], metadata_uri := [104, 105],
    created_at := 100, updated_at := 100, verification_bits := 0,
    recovery_counter := 0, bump := 0 }

def credW : CredentialAccount :=
  { owner := 3, credential_type := [107], claims_hash := [9, 9],
    issuer_did := [100], issued_at := 50, expiry := some 1000,
    metadata_uri := [], revoked := false, revocation_reason := none, bump := 0 }

/-! ## Claims about single handlers -/

theorem lor_lor_self (x m : Nat) : (x ||| m) ||| m = x ||| m := by
  rw [Nat.or_assoc, Nat.or_self]

theorem land_land_self (x m : Nat) : (x &&& m) &&& m = x &&& m := by
  rw [Nat.and_assoc, Nat.and_self]

/-- Claim C1: `verify_credential` fails `CredentialRevoked` when `revoked`;
otherwise fails `CredentialExpired` exactly when an expiry `t` is present with
`t ≤ now`; otherwise fails `HashMismatch` exactly when the stored hash differs
from `expected_hash`; otherwise succeeds — in that order of precedence. -/
theorem claim_C1 (c : CredentialAccount) (h : Hash32) (now : Int) :
    (c.revoked = true → verify_credential c h now = .error .CredentialRevoked) ∧
    (c.revoked = false → ∀ t, c.expiry = some t → t ≤ now →
      verify_credential c h now = .error .CredentialExpired) ∧
    (c.revoked = false → (∀ t, c.expiry = some t → now < t) →
      c.claims_hash ≠ h → verify_credential c h now = .error .HashMismatch) ∧
    (c.revoked = false → (∀ t, c.expiry = some t → now < t) →
      c.claims_hash = h → verify_credential c h now = .ok ()) := by
  refine ⟨?_, ?_, ?_, ?_⟩
  · intro hrev
    simp [verify_credential, hrev]
  · intro hrev t ht hle
    simp [verify_credential, hrev, ht, not_lt.mpr hle]
  · intro hrev hexp hne
    rcases hc : c.expiry with _ | t
    · simp [verify_credential, hrev, hc, hne]
    · simp [verify_credential, hrev, hc, hexp t hc, hne]
  · intro hrev hexp heq
    rcases hc : c.expiry with _ | t
    · simp [verify_credential, hrev, hc, heq]
    · simp [verify_credential, hrev, hc, hexp t hc, heq]

theorem claim_C1_witness :
    credW.revoked = false ∧ credW.expiry = some 1000 ∧ (1000 : Int) ≤ 1000 ∧
    verify_credential credW [9, 9] 1000 = .error .CredentialExpired :=
  ⟨rfl, rfl, le_refl 1000, (claim_C1 credW [9, 9] 1000).2.1 rfl 1000 rfl (le_refl 1000)⟩

/-- Claim C2: `recover_identity` succeeds iff `now - updated_at ≥ 2592000`
(boundary: fails with `RecoveryPeriodNotMet` at `updated_at + 2591999`,
succeeds at `updated_at + 2592000`); on success `owner := new_owner`,
`recovery_counter` increases by exactly 1, `updated_at := now`, and every
other field is unchanged. -/
theorem claim_C2 (a : Pubkey) (i : IdentityAccount) (o : Pubkey) (now : Int) :
    ((2592000 : Int) ≤ now - i.updated_at →
      recover_identity a i o now =
        .ok { i with
              owner := o
              recovery_counter := i.recovery_counter + 1
              updated_at := now }) ∧
    (now - i.updated_at < 2592000 →
      recover_identity a i o now = .error .RecoveryPeriodNotMet) ∧
    recover_identity a i o (i.updated_at + 2591999) = .error .RecoveryPeriodNotMet ∧
    recover_identity a i o (i.updated_at + 2592000) =
      .ok { i with
            owner := o
            recovery_counter := i.recovery_counter + 1
            updated_at := i.updated_at + 2592000 } := by
  refine ⟨?_, ?_, ?_, ?_⟩
  · intro hge
    simp only [recover_identity]
    rw [if_pos (by omega)]
  · intro hlt
    simp only [recover_identity]
    rw [if_neg (by omega)]
  · simp only [recover_identity]
    rw [if_neg (by omega)]
  · simp only [recover_identity]
    rw [if_pos (by omega)]

theorem claim_C2_witness :
    (2592000 : Int) ≤ 2592100 - idW.updated_at ∧
    recover_identity 1 idW 9 2592100 =
      .ok { idW with
            owner := 9
            recovery_counter := idW.recovery_counter + 1
            updated_at := 2592100 } :=
  ⟨by decide, (claim_C2 1 idW 9 2592100).1 (by decide)⟩

/-- Claim C4: `update_commitment`, `set_verification_bit`,
`clear_verification_bit`, `recover_identity` and `revoke_credential` give the
same result and the same record state under any two authenticated caller
keys — no comparison against the stored owner/issuer is performed. -/
theorem claim_C4 (k1 k2 : Pubkey) (i : IdentityAccount) (c : CredentialAccount)
    (nc : Hash32) (b : Nat) (o : Pubkey) (r : Bytes) (now : Int) :
    update_commitment k1 i nc now = update_commitment k2 i nc now ∧
    set_verification_bit k1 i b = set_verification_bit k2 i b ∧
    clear_verification_bit k1 i b = clear_verification_bit k2 i b ∧
    recover_identity k1 i o now = recover_identity k2 i o now ∧
    revoke_credential k1 c r = revoke_credential k2 c r :=
  ⟨rfl, rfl, rfl, rfl, rfl⟩

/-- Claim C6: for `bit_index < 32`, `set_verification_bit` twice equals once,
and `clear_verification_bit` twice equals once. -/
theorem claim_C6 (v a : Pubkey) (i : IdentityAccount) (b : Nat) (hb : b < 32) :
    (set_verification_bit v i b).bind (fun j => set_verification_bit v j b) =
      set_verification_bit v i b ∧
    (clear_verification_bit a i b).bind (fun j => clear_verification_bit a j b) =
      clear_verification_bit a i b := by
  constructor
  · simp [set_verification_bit, hb, Except.bind, lor_lor_self]
  · simp [clear_verification_bit, hb, Except.bind, land_land_self]

theorem claim_C6_witness :
    5 < 32 ∧
    ((set_verification_bit 1 idW 5).bind (fun j => set_verification_bit 1 j 5) =
        set_verification_bit 1 idW 5 ∧
      (clear_verification_bit 2 idW 5).bind (fun j => clear_verification_bit 2 j 5) =
        clear_verification_bit 2 idW 5) :=
  ⟨by decide, claim_C6 1 2 idW 5 (by decide)⟩

/-! ## Claims about single instructions against the chain state -/

def emptyState : ChainState :=
  { identities := fun _ => none, credentials := fun _ => none,
    grants := fun _ => none }

/-- A chain state holding exactly the sample identity `idW` at its canonical
address, used by witnesses. -/
def idStateW : ChainState :=
  { identities := fun a => if a = 7 then some idW else none
    credentials := fun _ => none
    grants := fun _ => none }

/-- A chain state holding exactly the sample credential `credW` at its
canonical address, used by witnesses. -/
def credStateW : ChainState :=
  { identities := fun _ => none
    credentials := fun a =>
      if a = (credW.owner, credW.credential_type, credW.issuer_did) then some credW
      else none
    grants := fun _ => none }

/-- The validation / temporal-policy failure kinds of §7 of the spec. -/
def isValidationError : ChainError → Prop
  | .identity .UriTooLong => True
  | .identity .InvalidBitIndex => True
  | .identity .RecoveryPeriodNotMet => True
  | .credential .TypeTooLong => True
  | .credential .DidTooLong => True
  | .credential .UriTooLong => True
  | .credential .ReasonTooLong => True
  | .credential .PurposeTooLong => True
  | .credential .InvalidExpiry => True
  | _ => False

/-- Claim C5: an operation that fails with a validation or temporal-policy
error leaves every existing record completely unchanged — no operation
partially applies. -/
theorem claim_C5 (s : ChainState) (now : Int) (op : Op) (e : ChainError)
    (he : exec s now op = .error e) (_hv : isValidationError e) :
    applyOp s now op = s := by
  simp [applyOp, he]

theorem claim_C5_witness :
    exec idStateW 0 (.setVerificationBit 1 7 33) =
      .error (.identity .InvalidBitIndex) ∧
    isValidationError (.identity .InvalidBitIndex) ∧
    applyOp idStateW 0 (.setVerificationBit 1 7 33) = idStateW :=
  ⟨by rfl, trivial, claim_C5 idStateW 0 (.setVerificationBit 1 7 33)
    (.identity .InvalidBitIndex) (by rfl) trivial⟩

/-- Claim C7: `verify_credential` mutates no record state at all — whether it
succeeds or fails, the whole chain state after the instruction equals the
state before it. -/
theorem claim_C7 (s : ChainState) (addr : CredAddr) (h : Hash32) (now : Int) :
    applyOp s now (.verifyCredential addr h) = s := by
  rcases hext : exec s now (.verifyCredential addr h) with e | s'
  · simp [applyOp, hext]
  · have hs : s' = s := by
      simp only [exec] at hext
      split at hext
      · simp at hext
      · next c heq =>
        by_cases hseed : credentialSeedsOK addr c
        · rw [if_pos hseed] at hext
          rcases hv : verify_credential c h now with e' | u <;> rw [hv] at hext
          · simp at hext
          · exact (Except.ok.inj hext).symm
        · rw [if_neg hseed] at hext
          simp at hext
    simp [applyOp, hext, hs]

/-- Claim C9 fails on the code: `GrantAccess`'s `#[instruction(purpose: String)]`
omits the leading `grantee` argument, so account resolution Borsh-parses
`purpose` out of the grantee's 32 raw bytes rather than from the semantic
purpose.  At this concrete input every hypothesis of the claim holds — the
credential exists at its address, the signer 4 differs from the stored
owner 3, the purpose is 1 byte, `expires_at = 500` is after `now = 100`, and
no grant exists anywhere — yet the operation aborts during resolution
(parsed length `0xFFFFFFFF` from the grantee bytes `ff ff ff ff 00 …`
exhausts the instruction data) instead of succeeding with `grantor = S` as
the claim states. -/
theorem claim_C9 :
    (4 : Pubkey) ≠ credW.owner ∧
    credStateW.credentials (credW.owner, credW.credential_type, credW.issuer_did) =
      some credW ∧
    ([112] : Bytes).length ≤ 200 ∧ (100 : Int) < 500 ∧
    (∀ p, credStateW.grants p = none) ∧
    exec credStateW 100 (.grantAccess 4 8
        (credW.owner, credW.credential_type, credW.issuer_did)
        4294967295 [112] 500 77) =
      .error .argParseFailed :=
  ⟨by decide, by rfl, by decide, by decide, fun p => rfl, by rfl⟩

/-- Claim C10: `create_identity` succeeds for any authenticated payer when no
identity for `owner` exists, the created record's fields depend only on
`(owner, commitment, metadata_uri, now)` and not on the payer's key — any
caller can occupy the identity record of any owner key. -/
theorem claim_C10 (s : ChainState) (p1 p2 owner : Pubkey) (commitment : Hash32)
    (uri : Bytes) (now : Int) (hu : uri.length ≤ 200)
    (hfree : s.identities owner = none) :
    exec s now (.createIdentity p1 owner commitment uri) =
      exec s now (.createIdentity p2 owner commitment uri) ∧
    exec s now (.createIdentity p1 owner commitment uri) =
      .ok (setIdentity s owner
        { owner := owner
          commitment := commitment
          metadata_uri := uri
          created_at := now
          updated_at := now
          verification_bits := 0
          recovery_counter := 0
          bump := identityBump owner }) := by
  constructor
  · rfl
  · simp only [exec]
    rw [hfree]
    simp [create_identity, hu]

theorem claim_C10_witness :
    ([104] : Bytes).length ≤ 200 ∧ emptyState.identities 2 = none ∧
    (exec emptyState 42 (.createIdentity 5 2 [3] [104]) =
        exec emptyState 42 (.createIdentity 6 2 [3] [104]) ∧
      exec emptyState 42 (.createIdentity 5 2 [3] [104]) =
        .ok (setIdentity emptyState 2
          { owner := 2
            commitment := [3]
            metadata_uri := [104]
            created_at := 42
            updated_at := 42
            verification_bits := 0
            recovery_counter := 0
            bump := identityBump 2 })) :=
  ⟨by decide, by rfl, claim_C10 emptyState 5 6 2 [3] [104] 42 (by decide) (by rfl)⟩

/-! ## Claims about sequences of operations -/

theorem applyOp_cred_mono (s : ChainState) (t : Int) (op : Op) (addr : CredAddr)
    (c : CredentialAccount) (h : s.credentials addr = some c) :
    (applyOp s t op).credentials addr = some c ∨
    ∃ reason, (applyOp s t op).credentials addr =
      some { c with revoked := true, revocation_reason := some reason } := by
  rcases hext : exec s t op with e | s'
  · left
    simp [applyOp, hext]
    exact h
  · have happ : applyOp s t op = s' := by simp [applyOp, hext]
    rw [happ]
    cases op with
    | revokeCredential issuer a reason =>
      simp only [exec] at hext
      split at hext
      · simp at hext
      · next c0 heq =>
        split at hext
        · rcases hrv : revoke_credential issuer c0 reason with e' | c' <;>
            rw [hrv] at hext
          · simp at hext
          · injection hext with hext
            subst hext
            unfold revoke_credential at hrv
            split at hrv
            · injection hrv with hrv
              subst hrv
              by_cases haddr : addr = a
              · subst haddr
                rw [h] at heq
                injection heq with heq
                subst heq
                right
                exact ⟨reason, by simp [setCredential]⟩
              · left
                simp only [setCredential]
                rw [if_neg haddr]
                exact h
            · simp at hrv
        · simp at hext
    | issueCredential owner payer ct ch did exp uri =>
      simp only [exec] at hext
      split at hext
      · exact Except.noConfusion hext
      · next ps heqp =>
        split at hext
        · exact Except.noConfusion hext
        · next heq =>
          rcases hic : issue_credential owner payer ct ch did exp uri t with e' | c' <;>
            rw [hic] at hext
          · exact Except.noConfusion hext
          · injection hext with hext
            subst hext
            left
            by_cases haddr : addr = (owner, ps.1, ps.2)
            · rw [haddr, heq] at h
              cases h
            · simp only [setCredential]
              rw [if_neg haddr]
              exact h
    | createIdentity payer owner commitment uri =>
      simp only [exec] at hext
      repeat' split at hext
      all_goals first
        | exact Except.noConfusion hext
        | (obtain rfl := Except.ok.inj hext; exact Or.inl h)
    | updateCommitment authority a nc =>
      simp only [exec] at hext
      repeat' split at hext
      all_goals first
        | exact Except.noConfusion hext
        | (obtain rfl := Except.ok.inj hext; exact Or.inl h)
    | setVerificationBit verifier a b =>
      simp only [exec] at hext
      repeat' split at hext
      all_goals first
        | exact Except.noConfusion hext
        | (obtain rfl := Except.ok.inj hext; exact Or.inl h)
    | clearVerificationBit authority a b =>
      simp only [exec] at hext
      repeat' split at hext
      all_goals first
        | exact Except.noConfusion hext
        | (obtain rfl := Except.ok.inj hext; exact Or.inl h)
    | recoverIdentity authority a o =>
      simp only [exec] at hext
      repeat' split at hext
      all_goals first
        | exact Except.noConfusion hext
        | (obtain rfl := Except.ok.inj hext; exact Or.inl h)
    | grantAccess owner payer a grantee purpose expires_at field_mask =>
      simp only [exec] at hext
      repeat' split at hext
      all_goals first
        | exact Except.noConfusion hext
        | (obtain rfl := Except.ok.inj hext; exact Or.inl h)
    | revokeAccessGrant grantor a =>
      simp only [exec] at hext
      repeat' split at hext
      all_goals first
        | exact Except.noConfusion hext
        | (obtain rfl := Except.ok.inj hext; exact Or.inl h)
    | verifyCredential a eh =>
      simp only [exec] at hext
      repeat' split at hext
      all_goals first
        | exact Except.noConfusion hext
        | (obtain rfl := Except.ok.inj hext; exact Or.inl h)

theorem applyOp_grant_mono (s : ChainState) (t : Int) (op : Op) (addr : GrantAddr)
    (g : AccessGrantAccount) (h : s.grants addr = some g) :
    (applyOp s t op).grants addr = some g ∨
    (applyOp s t op).grants addr = some { g with revoked := true } := by
  rcases hext : exec s t op with e | s'
  · left
    simp [applyOp, hext]
    exact h
  · have happ : applyOp s t op = s' := by simp [applyOp, hext]
    rw [happ]
    cases op with
    | revokeAccessGrant grantor a =>
      simp only [exec] at hext
      split at hext
      · simp at hext
      · next g0 heq =>
        split at hext
        · injection hext with hext
          subst hext
          by_cases haddr : addr = a
          · subst haddr
            rw [h] at heq
            injection heq with heq
            subst heq
            right
            simp [setGrant, revoke_access_grant]
          · left
            simp only [setGrant]
            rw [if_neg haddr]
            exact h
        · simp at hext
    | grantAccess owner payer a grantee purpose expires_at field_mask =>
      simp only [exec] at hext
      split at hext
      · exact Except.noConfusion hext
      · next pp heqp =>
        split at hext
        · exact Except.noConfusion hext
        · next c0 heqc =>
          split at hext
          · split at hext
            · exact Except.noConfusion hext
            · next heqg =>
              rcases hga : grant_access owner payer a grantee purpose expires_at
                  field_mask t with e' | g' <;> rw [hga] at hext
              · exact Except.noConfusion hext
              · injection hext with hext
                subst hext
                left
                by_cases haddr : addr = (a, owner, pp)
                · rw [haddr, heqg] at h
                  cases h
                · simp only [setGrant]
                  rw [if_neg haddr]
                  exact h
          · exact Except.noConfusion hext
    | createIdentity payer owner commitment uri =>
      simp only [exec] at hext
      repeat' split at hext
      all_goals first
        | exact Except.noConfusion hext
        | (obtain rfl := Except.ok.inj hext; exact Or.inl h)
    | updateCommitment authority a nc =>
      simp only [exec] at hext
      repeat' split at hext
      all_goals first
        | exact Except.noConfusion hext
        | (obtain rfl := Except.ok.inj hext; exact Or.inl h)
    | setVerificationBit verifier a b =>
      simp only [exec] at hext
      repeat' split at hext
      all_goals first
        | exact Except.noConfusion hext
        | (obtain rfl := Except.ok.inj hext; exact Or.inl h)
    | clearVerificationBit authority a b =>
      simp only [exec] at hext
      repeat' split at hext
      all_goals first
        | exact Except.noConfusion hext
        | (obtain rfl := Except.ok.inj hext; exact Or.inl h)
    | recoverIdentity authority a o =>
      simp only [exec] at hext
      repeat' split at hext
      all_goals first
        | exact Except.noConfusion hext
        | (obtain rfl := Except.ok.inj hext; exact Or.inl h)
    | issueCredential owner payer ct ch did exp uri =>
      simp only [exec] at hext
      repeat' split at hext
      all_goals first
        | exact Except.noConfusion hext
        | (obtain rfl := Except.ok.inj hext; exact Or.inl h)
    | revokeCredential issuer a reason =>
      simp only [exec] at hext
      repeat' split at hext
      all_goals first
        | exact Except.noConfusion hext
        | (obtain rfl := Except.ok.inj hext; exact Or.inl h)
    | verifyCredential a eh =>
      simp only [exec] at hext
      repeat' split at hext
      all_goals first
        | exact Except.noConfusion hext
        | (obtain rfl := Except.ok.inj hext; exact Or.inl h)

/-- Claim C3: once `revoked = true` on a credential or an access grant, no
sequence of operations of the core ever returns it to `false`. -/
theorem claim_C3 (s : ChainState) (ops : List (Int × Op)) (caddr : CredAddr)
    (gaddr : GrantAddr) :
    (∀ c, s.credentials caddr = some c → c.revoked = true →
      ∃ c', (run s ops).credentials caddr = some c' ∧ c'.revoked = true) ∧
    (∀ g, s.grants gaddr = some g → g.revoked = true →
      ∃ g', (run s ops).grants gaddr = some g' ∧ g'.revoked = true) := by
  induction ops generalizing s with
  | nil => exact ⟨fun c hc hr => ⟨c, hc, hr⟩, fun g hg hr => ⟨g, hg, hr⟩⟩
  | cons p rest ih =>
    obtain ⟨t, op⟩ := p
    simp only [run]
    constructor
    · intro c hc hr
      rcases applyOp_cred_mono s t op caddr c hc with h1 | ⟨reason, h1⟩
      · exact (ih (applyOp s t op)).1 c h1 hr
      · exact (ih (applyOp s t op)).1 _ h1 rfl
    · intro g hg hr
      rcases applyOp_grant_mono s t op gaddr g hg with h1 | h1
      · exact (ih (applyOp s t op)).2 g h1 hr
      · exact (ih (applyOp s t op)).2 _ h1 rfl

def credRevokedW : CredentialAccount :=
  { credW with revoked := true, revocation_reason := some [98] }

def grantRevokedW : AccessGrantAccount :=
  { credential := (3, [107], [100]), grantor := 4, grantee := 9, purpose := [112],
    expires_at := 500, field_mask := 1, revoked := true, bump := 0 }

def revokedStateW : ChainState :=
  { identities := fun _ => none
    credentials := fun a => if a = (3, [107], [100]) then some credRevokedW else none
    grants := fun a =>
      if a = ((3, [107], [100]), 4, [112]) then some grantRevokedW else none }

theorem claim_C3_witness :
    revokedStateW.credentials (3, [107], [100]) = some credRevokedW ∧
    credRevokedW.revoked = true ∧
    revokedStateW.grants ((3, [107], [100]), 4, [112]) = some grantRevokedW ∧
    grantRevokedW.revoked = true ∧
    (∃ c', (run revokedStateW
        [(600, Op.verifyCredential (3, [107], [100]) [9, 9])]).credentials
          (3, [107], [100]) = some c' ∧ c'.revoked = true) ∧
    (∃ g', (run revokedStateW
        [(600, Op.verifyCredential (3, [107], [100]) [9, 9])]).grants
          ((3, [107], [100]), 4, [112]) = some g' ∧ g'.revoked = true) :=
  ⟨by rfl, rfl, by rfl, rfl,
    (claim_C3 revokedStateW [(600, Op.verifyCredential (3, [107], [100]) [9, 9])]
      (3, [107], [100]) ((3, [107], [100]), 4, [112])).1 credRevokedW (by rfl) rfl,
    (claim_C3 revokedStateW [(600, Op.verifyCredential (3, [107], [100]) [9, 9])]
      (3, [107], [100]) ((3, [107], [100]), 4, [112])).2 grantRevokedW (by rfl) rfl⟩

/-- Every identity record's `updated_at` is at most `t` (the clock never runs
behind the stored timestamps). -/
def identitiesBounded (s : ChainState) (t : Int) : Prop :=
  ∀ a i, s.identities a = some i → i.updated_at ≤ t

/-- The clock values supplied to a sequence of operations are non-decreasing,
starting from a lower bound. -/
def ClockOK : Int → List (Int × Op) → Prop
  | _, [] => True
  | t, (u, _) :: rest => t ≤ u ∧ ClockOK u rest

theorem applyOp_id_step (s : ChainState) (t : Int) (op : Op)
    (hb : identitiesBounded s t) :
    identitiesBounded (applyOp s t op) t ∧
    ∀ a i, s.identities a = some i →
      ∃ i', (applyOp s t op).identities a = some i' ∧
        i.updated_at ≤ i'.updated_at ∧ i.recovery_counter ≤ i'.recovery_counter := by
  rcases hext : exec s t op with e | s'
  · have happ : applyOp s t op = s := by simp [applyOp, hext]
    rw [happ]
    exact ⟨hb, fun a i hi => ⟨i, hi, le_refl _, le_refl _⟩⟩
  · have happ : applyOp s t op = s' := by simp [applyOp, hext]
    rw [happ]
    cases op with
    | createIdentity payer owner commitment uri =>
      simp only [exec] at hext
      split at hext
      · exact Except.noConfusion hext
      · next heq =>
        rcases hci : create_identity payer owner commitment uri t with e' | inew <;>
          rw [hci] at hext
        · exact Except.noConfusion hext
        · obtain rfl := Except.ok.inj hext
          have hinew : inew.updated_at = t := by
            unfold create_identity at hci
            split at hci
            · obtain rfl := Except.ok.inj hci
              rfl
            · exact Except.noConfusion hci
          constructor
          · intro a i hi
            simp only [setIdentity] at hi
            by_cases haddr : a = owner
            · rw [if_pos haddr] at hi
              injection hi with hi
              subst hi
              exact le_of_eq hinew
            · rw [if_neg haddr] at hi
              exact hb a i hi
          · intro a i hi
            by_cases haddr : a = owner
            · rw [haddr, heq] at hi
              cases hi
            · refine ⟨i, ?_, le_refl _, le_refl _⟩
              simp only [setIdentity]
              rw [if_neg haddr]
              exact hi
    | updateCommitment authority addr nc =>
      simp only [exec] at hext
      split at hext
      · exact Except.noConfusion hext
      · next i0 heq =>
        split at hext
        · obtain rfl := Except.ok.inj hext
          constructor
          · intro a i hi
            simp only [setIdentity] at hi
            by_cases haddr : a = addr
            · rw [if_pos haddr] at hi
              injection hi with hi
              subst hi
              exact le_refl t
            · rw [if_neg haddr] at hi
              exact hb a i hi
          · intro a i hi
            by_cases haddr : a = addr
            · subst haddr
              rw [hi] at heq
              injection heq with heq
              subst heq
              refine ⟨update_commitment authority i nc t, by simp [setIdentity], ?_, le_refl _⟩
              exact hb a i hi
            · refine ⟨i, ?_, le_refl _, le_refl _⟩
              simp only [setIdentity]
              rw [if_neg haddr]
              exact hi
        · exact Except.noConfusion hext
    | setVerificationBit verifier addr b =>
      simp only [exec] at hext
      split at hext
      · exact Except.noConfusion hext
      · next i0 heq =>
        split at hext
        · rcases hsb : set_verification_bit verifier i0 b with e' | inew <;>
            rw [hsb] at hext
          · exact Except.noConfusion hext
          · obtain rfl := Except.ok.inj hext
            have hinew : inew.updated_at = i0.updated_at ∧
                inew.recovery_counter = i0.recovery_counter := by
              unfold set_verification_bit at hsb
              split at hsb
              · obtain rfl := Except.ok.inj hsb
                exact ⟨rfl, rfl⟩
              · exact Except.noConfusion hsb
            constructor
            · intro a i hi
              simp only [setIdentity] at hi
              by_cases haddr : a = addr
              · rw [if_pos haddr] at hi
                injection hi with hi
                subst hi
                rw [hinew.1]
                exact hb addr i0 heq
              · rw [if_neg haddr] at hi
                exact hb a i hi
            · intro a i hi
              by_cases haddr : a = addr
              · subst haddr
                rw [hi] at heq
                injection heq with heq
                subst heq
                refine ⟨inew, by simp [setIdentity], le_of_eq hinew.1.symm,
                  le_of_eq hinew.2.symm⟩
              · refine ⟨i, ?_, le_refl _, le_refl _⟩
                simp only [setIdentity]
                rw [if_neg haddr]
                exact hi
        · exact Except.noConfusion hext
    | clearVerificationBit authority addr b =>
      simp only [exec] at hext
      split at hext
      · exact Except.noConfusion hext
      · next i0 heq =>
        split at hext
        · rcases hsb : clear_verification_bit authority i0 b with e' | inew <;>
            rw [hsb] at hext
          · exact Except.noConfusion hext
          · obtain rfl := Except.ok.inj hext
            have hinew : inew.updated_at = i0.updated_at ∧
                inew.recovery_counter = i0.recovery_counter := by
              unfold clear_verification_bit at hsb
              split at hsb
              · obtain rfl := Except.ok.inj hsb
                exact ⟨rfl, rfl⟩
              · exact Except.noConfusion hsb
            constructor
            · intro a i hi
              simp only [setIdentity] at hi
              by_cases haddr : a = addr
              · rw [if_pos haddr] at hi
                injection hi with hi
                subst hi
                rw [hinew.1]
                exact hb addr i0 heq
              · rw [if_neg haddr] at hi
                exact hb a i hi
            · intro a i hi
              by_cases haddr : a = addr
              · subst haddr
                rw [hi] at heq
                injection heq with heq
                subst heq
                refine ⟨inew, by simp [setIdentity], le_of_eq hinew.1.symm,
                  le_of_eq hinew.2.symm⟩
              · refine ⟨i, ?_, le_refl _, le_refl _⟩
                simp only [setIdentity]
                rw [if_neg haddr]
                exact hi
        · exact Except.noConfusion hext
    | recoverIdentity authority addr o =>
      simp only [exec] at hext
      split at hext
      · exact Except.noConfusion hext
      · next i0 heq =>
        split at hext
        · rcases hrc : recover_identity authority i0 o t with e' | inew <;>
            rw [hrc] at hext
          · exact Except.noConfusion hext
          · obtain rfl := Except.ok.inj hext
            have hinew : inew.updated_at = t ∧
                inew.recovery_counter = i0.recovery_counter + 1 := by
              simp only [recover_identity] at hrc
              split at hrc
              · obtain rfl := Except.ok.inj hrc
                exact ⟨rfl, rfl⟩
              · exact Except.noConfusion hrc
            constructor
            · intro a i hi
              simp only [setIdentity] at hi
              by_cases haddr : a = addr
              · rw [if_pos haddr] at hi
                injection hi with hi
                subst hi
                exact le_of_eq hinew.1
              · rw [if_neg haddr] at hi
                exact hb a i hi
            · intro a i hi
              by_cases haddr : a = addr
              · subst haddr
                rw [hi] at heq
                injection heq with heq
                subst heq
                refine ⟨inew, by simp [setIdentity], ?_, ?_⟩
                · rw [hinew.1]
                  exact hb a i hi
                · rw [hinew.2]
                  exact Nat.le_succ _
              · refine ⟨i, ?_, le_refl _, le_refl _⟩
                simp only [setIdentity]
                rw [if_neg haddr]
                exact hi
        · exact Except.noConfusion hext
    | issueCredential owner payer ct ch did exp uri =>
      simp only [exec] at hext
      repeat' split at hext
      all_goals first
        | exact Except.noConfusion hext
        | (obtain rfl := Except.ok.inj hext
           exact ⟨hb, fun a i hi => ⟨i, hi, le_refl _, le_refl _⟩⟩)
    | revokeCredential issuer a reason =>
      simp only [exec] at hext
      repeat' split at hext
      all_goals first
        | exact Except.noConfusion hext
        | (obtain rfl := Except.ok.inj hext
           exact ⟨hb, fun a i hi => ⟨i, hi, le_refl _, le_refl _⟩⟩)
    | grantAccess owner payer a grantee purpose expires_at field_mask =>
      simp only [exec] at hext
      repeat' split at hext
      all_goals first
        | exact Except.noConfusion hext
        | (obtain rfl := Except.ok.inj hext
           exact ⟨hb, fun a i hi => ⟨i, hi, le_refl _, le_refl _⟩⟩)
    | revokeAccessGrant grantor a =>
      simp only [exec] at hext
      repeat' split at hext
      all_goals first
        | exact Except.noConfusion hext
        | (obtain rfl := Except.ok.inj hext
           exact ⟨hb, fun a i hi => ⟨i, hi, le_refl _, le_refl _⟩⟩)
    | verifyCredential a eh =>
      simp only [exec] at hext
      repeat' split at hext
      all_goals first
        | exact Except.noConfusion hext
        | (obtain rfl := Except.ok.inj hext
           exact ⟨hb, fun a i hi => ⟨i, hi, le_refl _, le_refl _⟩⟩)

/-- Claim C8: under a non-decreasing external clock, every identity record's
`updated_at` is monotonically non-decreasing and its `recovery_counter` never
decreases over any sequence of operations. -/
theorem claim_C8 (s : ChainState) (t0 : Int) (ops : List (Int × Op))
    (hclock : ClockOK t0 ops) (hb : identitiesBounded s t0)
    (a : Pubkey) (i i' : IdentityAccount)
    (hi : s.identities a = some i) (hi' : (run s ops).identities a = some i') :
    i.updated_at ≤ i'.updated_at ∧ i.recovery_counter ≤ i'.recovery_counter := by
  induction ops generalizing s t0 i with
  | nil =>
    simp only [run] at hi'
    rw [hi] at hi'
    injection hi' with hh
    subst hh
    exact ⟨le_refl _, le_refl _⟩
  | cons p rest ih =>
    obtain ⟨u, op⟩ := p
    obtain ⟨htu, hcrest⟩ := hclock
    have hbu : identitiesBounded s u := fun a' i0 h0 => le_trans (hb a' i0 h0) htu
    obtain ⟨hbound, hmono⟩ := applyOp_id_step s u op hbu
    obtain ⟨imid, hmid, hle1, hle2⟩ := hmono a i hi
    have hrest := ih (applyOp s u op) u hcrest hbound imid hmid
      (by simpa [run] using hi')
    exact ⟨le_trans hle1 hrest.1, le_trans hle2 hrest.2⟩

theorem claim_C8_witness :
    ClockOK 100 [(150, Op.updateCommitment 1 7 [5])] ∧
    identitiesBounded idStateW 100 ∧
    idStateW.identities 7 = some idW ∧
    (run idStateW [(150, Op.updateCommitment 1 7 [5])]).identities 7 =
      some { idW with commitment := [5], updated_at := 150 } ∧
    (idW.updated_at ≤
        ({ idW with commitment := [5], updated_at := 150 } : IdentityAccount).updated_at ∧
      idW.recovery_counter ≤
        ({ idW with commitment := [5], updated_at := 150 } : IdentityAccount).recovery_counter) := by
  have hbW : identitiesBounded idStateW 100 := by
    intro a i h
    simp only [idStateW] at h
    split at h
    · injection h with h
      subst h
      decide
    · cases h
  refine ⟨⟨by decide, trivial⟩, hbW, rfl, rfl, ?_⟩
  exact claim_C8 idStateW 100 [(150, Op.updateCommitment 1 7 [5])]
    ⟨by decide, trivial⟩ hbW 7 idW { idW with commitment := [5], updated_at := 150 }
    rfl rfl

end AadhaarChain
